import Mathlib

/-!
Verification of the form-submission backend (`src/form.js`, `src/webhook.js`).

The development shallowly embeds the second (current) revision of `form.js`:
the forms table is a list of rows with a logical creation clock, a JSON-ish
payload is an association list of string keys to JavaScript values
(undefined / null / string), and each exported operation of the source is
translated into a pure function over an explicit store state.  The mail
transport outcome is passed in as a boolean so that theorems can quantify
over delivery success and failure.
-/

/-- A JavaScript value as it can appear in a request payload field:
`undefined` (also the result of reading an absent key), `null`, or a string. -/
inductive JsVal where
  | undef : JsVal
  | null : JsVal
  | str : String → JsVal
deriving DecidableEq

/-- A JavaScript object (request payload): keys in insertion order.
Genuine JS objects have distinct keys; lookup takes the first match. -/
abbrev JsObj := List (String × JsVal)

/-- Property read `data[key]`: `undefined` when the key is absent. -/
def jsGet : JsObj → String → JsVal
  | [], _ => JsVal.undef
  | (k, v) :: rest, key => if key = k then v else jsGet rest key

/-- The SQL parameter produced by `x ?? null` on a payload value:
`undefined` and `null` both store as SQL NULL, a string stores itself. -/
def dbOfJs : JsVal → Option String
  | JsVal.undef => none
  | JsVal.null => none
  | JsVal.str s => some s

/-- One row of the `forms` table (current column set used by `form.js`).
`none` models SQL NULL.  `created_at` is a logical timestamp assigned at
insert by the store clock and never mentioned by any UPDATE statement. -/
structure FormRow where
  id : Nat
  company : Option String
  name : Option String
  contact_number : Option String
  email : Option String
  disposition : Option String
  query : Option String
  call_disposition : Option String
  queue_id : Option String
  queue_name : Option String
  agent_id : Option String
  agent_ext : Option String
  caller_id__name : Option String
  caller_id__number : Option String
  after_disposition : Option String
  after_sub_disposition : Option String
  after_follow_up_notes : Option String
  created_at : Nat
deriving DecidableEq

/-- The database state: rows in insertion order, the AUTO_INCREMENT counter,
and a logical clock supplying `created_at` values. -/
structure Store where
  rows : List FormRow
  nextId : Nat
  clock : Nat
deriving DecidableEq

/-- The freshly created database. -/
def Store.empty : Store := { rows := [], nextId := 1, clock := 0 }

/-- Enumeration of the sixteen payload-updatable columns of `forms`. -/
inductive FormField where
  | company | name | contact_number | email | disposition | query
  | call_disposition | queue_id | queue_name | agent_id | agent_ext
  | caller_id__name | caller_id__number
  | after_disposition | after_sub_disposition | after_follow_up_notes
deriving DecidableEq

/-- The JSON key of a form field, as destructured by `form.js`. -/
def fieldKey : FormField → String
  | FormField.company => "company"
  | FormField.name => "name"
  | FormField.contact_number => "contact_number"
  | FormField.email => "email"
  | FormField.disposition => "disposition"
  | FormField.query => "query"
  | FormField.call_disposition => "call_disposition"
  | FormField.queue_id => "queue_id"
  | FormField.queue_name => "queue_name"
  | FormField.agent_id => "agent_id"
  | FormField.agent_ext => "agent_ext"
  | FormField.caller_id__name => "caller_id__name"
  | FormField.caller_id__number => "caller_id__number"
  | FormField.after_disposition => "after_disposition"
  | FormField.after_sub_disposition => "after_sub_disposition"
  | FormField.after_follow_up_notes => "after_follow_up_notes"

/-- The stored value of a row at a given field. -/
def FormRow.fieldVal (r : FormRow) : FormField → Option String
  | FormField.company => r.company
  | FormField.name => r.name
  | FormField.contact_number => r.contact_number
  | FormField.email => r.email
  | FormField.disposition => r.disposition
  | FormField.query => r.query
  | FormField.call_disposition => r.call_disposition
  | FormField.queue_id => r.queue_id
  | FormField.queue_name => r.queue_name
  | FormField.agent_id => r.agent_id
  | FormField.agent_ext => r.agent_ext
  | FormField.caller_id__name => r.caller_id__name
  | FormField.caller_id__number => r.caller_id__number
  | FormField.after_disposition => r.after_disposition
  | FormField.after_sub_disposition => r.after_sub_disposition
  | FormField.after_follow_up_notes => r.after_follow_up_notes

/-- The static `DISPOSITION_TO_EMAIL` lookup table of `form.js`
(current revision): label to address, with an explicit `null` entry
("no email needed") for "General Enquiry". -/
def DISPOSITION_TO_EMAIL : List (String × Option String) :=
  [("Customer Support", some "ayan@multycomm.com"),
   ("Consultant support", some "ayandgr5@gmail.com"),
   ("Application Support", some "meenakshi@multycomm.com"),
   ("B2B Lead", some "akash@multycomm.com"),
   ("New Lead", some "sanjana@multycomm.com"),
   ("Renewals", some "vidhika@multycomm.com"),
   ("Concierge Services", some "ayan@multycomm.com"),
   ("General Enquiry", none)]

/-- JS object property lookup on the mapping: outer `none` models
`undefined` (absent key), `some none` models a stored `null`. -/
def assocLookup : List (String × Option String) → String → Option (Option String)
  | [], _ => none
  | (k, v) :: rest, key => if key = k then some v else assocLookup rest key

/-- The JS expression `v || dflt` applied to a mapping lookup result:
`undefined`, `null` and the empty string are falsy and yield the default. -/
def jsOr : Option (Option String) → String → String
  | some (some s), d => if s = "" then d else s
  | some none, d => d
  | none, d => d

/-- `DISPOSITION_TO_EMAIL[disposition]` when `disposition` is a raw payload
value: JS coerces `undefined`/`null` to the keys "undefined"/"null", which
are absent from the mapping, so only a string value can hit an entry. -/
def dispGetJs : JsVal → Option (Option String)
  | JsVal.str s => assocLookup DISPOSITION_TO_EMAIL s
  | JsVal.undef => none
  | JsVal.null => none

/-- `DISPOSITION_TO_EMAIL[disposition]` when `disposition` is a merged
database value (string or SQL NULL); NULL coerces to the absent key "null". -/
def dispGetOpt : Option String → Option (Option String)
  | some s => assocLookup DISPOSITION_TO_EMAIL s
  | none => none

/-- Outcome of resolving a disposition label to a destination mailbox. -/
inductive Mailbox where
  | address : String → Mailbox
  | suppressed : Mailbox
deriving DecidableEq

/-- The mailbox-resolution logic shared by the create and update paths of
`form.js`: an early return suppresses "General Enquiry" before the mapping
is consulted, otherwise `DISPOSITION_TO_EMAIL[label] || 'info@shams.ae'`. -/
def resolveMailbox (label : String) : Mailbox :=
  if label = "General Enquiry" then Mailbox.suppressed
  else Mailbox.address (jsOr (assocLookup DISPOSITION_TO_EMAIL label) "info@shams.ae")

/-- The row inserted by `handleFormSubmission`: every column receives
`field ?? null` from the payload; id and creation time come from the store. -/
def createRow (st : Store) (data : JsObj) : FormRow :=
  { id := st.nextId
    company := dbOfJs (jsGet data "company")
    name := dbOfJs (jsGet data "name")
    contact_number := dbOfJs (jsGet data "contact_number")
    email := dbOfJs (jsGet data "email")
    disposition := dbOfJs (jsGet data "disposition")
    query := dbOfJs (jsGet data "query")
    call_disposition := dbOfJs (jsGet data "call_disposition")
    queue_id := dbOfJs (jsGet data "queue_id")
    queue_name := dbOfJs (jsGet data "queue_name")
    agent_id := dbOfJs (jsGet data "agent_id")
    agent_ext := dbOfJs (jsGet data "agent_ext")
    caller_id__name := dbOfJs (jsGet data "caller_id__name")
    caller_id__number := dbOfJs (jsGet data "caller_id__number")
    after_disposition := dbOfJs (jsGet data "after_disposition")
    after_sub_disposition := dbOfJs (jsGet data "after_sub_disposition")
    after_follow_up_notes := dbOfJs (jsGet data "after_follow_up_notes")
    created_at := st.clock }

/-- Result of `handleFormSubmission`: the new store, the id given to the
inserted row, the address a notification was attempted to (`none` when
suppressed), and whether the transport reported success. -/
structure CreateOut where
  store : Store
  id : Nat
  emailTo : Option String
  delivered : Bool
deriving DecidableEq

/-- `handleFormSubmission(data)` of `form.js` (current revision): INSERT the
row, then skip mail for a literal "General Enquiry" disposition, otherwise
attempt delivery to `DISPOSITION_TO_EMAIL[disposition] || 'info@shams.ae'`.
`mailOk` is the outcome the external mail transport would report; a failure
is caught and logged by the source, so it only shows in `delivered`. -/
def handleFormSubmission (mailOk : Bool) (st : Store) (data : JsObj) : CreateOut :=
  let row := createRow st data
  let st' : Store := { rows := st.rows ++ [row], nextId := st.nextId + 1, clock := st.clock + 1 }
  if jsGet data "disposition" = JsVal.str "General Enquiry" then
    { store := st', id := row.id, emailTo := none, delivered := false }
  else
    { store := st', id := row.id,
      emailTo := some (jsOr (dispGetJs (jsGet data "disposition")) "info@shams.ae"),
      delivered := mailOk }

/-- JS destructuring with default, `const. field = current.field . = data`:
an `undefined` payload value (absent key included) keeps the stored value,
`null` stores NULL, a string stores itself. -/
def mergeField (cur : Option String) : JsVal → Option String
  | JsVal.undef => cur
  | JsVal.null => none
  | JsVal.str s => some s

/-- The merged values computed by `updateFormSubmission`'s destructuring of
`data` with defaults taken from the fetched row; id and `created_at` are not
part of the destructuring and stay those of `current`. -/
def mergeRow (current : FormRow) (data : JsObj) : FormRow :=
  { current with
    company := mergeField current.company (jsGet data "company")
    name := mergeField current.name (jsGet data "name")
    contact_number := mergeField current.contact_number (jsGet data "contact_number")
    email := mergeField current.email (jsGet data "email")
    disposition := mergeField current.disposition (jsGet data "disposition")
    query := mergeField current.query (jsGet data "query")
    call_disposition := mergeField current.call_disposition (jsGet data "call_disposition")
    queue_id := mergeField current.queue_id (jsGet data "queue_id")
    queue_name := mergeField current.queue_name (jsGet data "queue_name")
    agent_id := mergeField current.agent_id (jsGet data "agent_id")
    agent_ext := mergeField current.agent_ext (jsGet data "agent_ext")
    caller_id__name := mergeField current.caller_id__name (jsGet data "caller_id__name")
    caller_id__number := mergeField current.caller_id__number (jsGet data "caller_id__number")
    after_disposition := mergeField current.after_disposition (jsGet data "after_disposition")
    after_sub_disposition := mergeField current.after_sub_disposition (jsGet data "after_sub_disposition")
    after_follow_up_notes := mergeField current.after_follow_up_notes (jsGet data "after_follow_up_notes") }

/-- The effect of the UPDATE statement on one matching row: it SETs the
sixteen merged columns and leaves `id` and `created_at` alone. -/
def applyUpdate (merged r : FormRow) : FormRow :=
  { merged with id := r.id, created_at := r.created_at }

/-- `Object.keys(data).filter(k => data[k] !== undefined)` of the source:
the keys the caller explicitly supplied with a defined value. -/
def meaningfulKeys (data : JsObj) : List String :=
  (data.filter fun kv => kv.2 != JsVal.undef).map Prod.fst

/-- Result of a successful `updateFormSubmission`: attempted notification
address (`none` when suppressed) and the transport outcome. -/
structure UpdateOut where
  emailTo : Option String
  delivered : Bool
deriving DecidableEq

/-- `getFormById(id)`: `SELECT * FROM forms WHERE id = ?`, first row or null. -/
def getFormById (st : Store) (id : Nat) : Option FormRow :=
  st.rows.find? fun r => r.id == id

/-- `updateFormSubmission(id, data)` of `form.js` (current revision): fetch
the existing row (throwing when absent, before any write), execute the
UPDATE with destructuring-merged values, suppress mail when the payload's
only defined key is `call_disposition`, suppress mail for a merged
"General Enquiry" disposition, otherwise attempt delivery to
`DISPOSITION_TO_EMAIL[disposition] || 'info@shams.ae'`. -/
def updateFormSubmission (mailOk : Bool) (st : Store) (id : Nat) (data : JsObj) :
    Store × Except String UpdateOut :=
  match getFormById st id with
  | none => (st, Except.error ("Form with id " ++ toString id ++ " not found"))
  | some current =>
    let merged := mergeRow current data
    let st' : Store :=
      { st with rows := st.rows.map fun r => if r.id == id then applyUpdate merged r else r }
    if meaningfulKeys data = ["call_disposition"] then
      (st', Except.ok { emailTo := none, delivered := false })
    else if merged.disposition = some "General Enquiry" then
      (st', Except.ok { emailTo := none, delivered := false })
    else
      (st', Except.ok
        { emailTo := some (jsOr (dispGetOpt merged.disposition) "info@shams.ae")
          delivered := mailOk })

/-- Descending insertion by `created_at` (newest first). -/
def insertDesc (r : FormRow) : List FormRow → List FormRow
  | [] => [r]
  | x :: xs => if r.created_at ≤ x.created_at then x :: insertDesc r xs else r :: x :: xs

/-- `ORDER BY created_at DESC` as an insertion sort. -/
def sortDesc (l : List FormRow) : List FormRow := l.foldr insertDesc []

/-- `listForms()`: `SELECT * FROM forms ORDER BY created_at DESC`. -/
def listForms (st : Store) : List FormRow := sortDesc st.rows

/-- The JS expression `v || dflt` on a raw payload value, as used by the
webhook intake (`cidname || 'Unknown Company'` and similar). -/
def jsOrElse (v : JsVal) (d : String) : String :=
  match v with
  | JsVal.str s => if s = "" then d else s
  | JsVal.undef => d
  | JsVal.null => d

/-- Response produced by the webhook endpoint. -/
inductive WebhookResponse where
  | badRequest : WebhookResponse
  | redirect : String → WebhookResponse
deriving DecidableEq

/-- Result of `processWebhookData`: the source contains no mail-transport
call on this path, hence `emailTo` is its (always absent) attempted
notification address. -/
structure WebhookOut where
  store : Store
  response : WebhookResponse
  emailTo : Option String
deriving DecidableEq

/-- The frontend base URL hard-coded in `webhook.js`. -/
def clientURL : String := "http://localhost:7775"

/-- The stub row inserted by `processWebhookData`: company and name default
from the caller-id name, disposition defaults to "General Enquiry", the
query is an auto-generated description, and the columns the webhook INSERT
does not mention store NULL. -/
def webhookRow (st : Store) (d : JsObj) : FormRow :=
  { id := st.nextId
    company := some (jsOrElse (jsGet d "cidname") "Unknown Company")
    name := some (jsOrElse (jsGet d "cidname") "Unknown Caller")
    contact_number := some (jsOrElse (jsGet d "cidnum") "")
    email := some ""
    disposition := some "General Enquiry"
    query := some ("Call received from queue: " ++ jsOrElse (jsGet d "qname") "Unknown")
    queue_id := some (jsOrElse (jsGet d "qid") "")
    queue_name := some (jsOrElse (jsGet d "qname") "")
    agent_id := some (jsOrElse (jsGet d "agent") "")
    agent_ext := some (jsOrElse (jsGet d "agentExtn") "")
    caller_id__name := some (jsOrElse (jsGet d "cidname") "")
    caller_id__number := some (jsOrElse (jsGet d "cidnum") "")
    call_disposition := none
    after_disposition := none
    after_sub_disposition := none
    after_follow_up_notes := none
    created_at := st.clock }

/-- `processWebhookData(data, res)` of `webhook.js`: reject a missing
payload, otherwise INSERT the stub row, read `LAST_INSERT_ID()`, and
redirect to the form UI with the new id as the `id` query parameter. -/
def processWebhookData (data : Option JsObj) (st : Store) : WebhookOut :=
  match data with
  | none => { store := st, response := WebhookResponse.badRequest, emailTo := none }
  | some d =>
    let row := webhookRow st d
    let st' : Store :=
      { rows := st.rows ++ [row], nextId := st.nextId + 1, clock := st.clock + 1 }
    { store := st'
      response := WebhookResponse.redirect (clientURL ++ "/forms?id=" ++ toString row.id)
      emailTo := none }

/-- Store sanity invariant maintained by the embedding of the database:
rows carry strictly increasing ids and creation times, all below the
AUTO_INCREMENT counter and the clock. -/
def StoreWF (st : Store) : Prop :=
  st.rows.Pairwise (fun a b => a.id < b.id ∧ a.created_at < b.created_at) ∧
  ∀ r ∈ st.rows, r.id < st.nextId ∧ r.created_at < st.clock

/-- A concrete stored row used to instantiate witness statements. -/
def sampleRow : FormRow :=
  { id := 1
    company := some "Acme"
    name := some "Ann"
    contact_number := some "555"
    email := some "ann@acme.example"
    disposition := some "Customer Support"
    query := some "pricing question"
    call_disposition := none
    queue_id := none
    queue_name := none
    agent_id := none
    agent_ext := none
    caller_id__name := none
    caller_id__number := none
    after_disposition := none
    after_sub_disposition := none
    after_follow_up_notes := none
    created_at := 7 }

/-- A concrete store holding `sampleRow`. -/
def sampleStore : Store := { rows := [sampleRow], nextId := 2, clock := 8 }

/-- A stored row with no disposition, for witnesses about empty dispositions. -/
def sampleRowNoDisp : FormRow :=
  { sampleRow with disposition := none }

/-- A concrete store holding `sampleRowNoDisp`. -/
def sampleStoreNoDisp : Store := { rows := [sampleRowNoDisp], nextId := 2, clock := 8 }

/-- `applyUpdate` only overrides `id` and `created_at`. -/
theorem fieldVal_applyUpdate (m r : FormRow) (f : FormField) :
    (applyUpdate m r).fieldVal f = m.fieldVal f := by
  cases f <;> rfl

/-- Each merged column is the destructuring default applied fieldwise. -/
theorem fieldVal_mergeRow (cur : FormRow) (data : JsObj) (f : FormField) :
    (mergeRow cur data).fieldVal f = mergeField (cur.fieldVal f) (jsGet data (fieldKey f)) := by
  cases f <;> rfl

/-- Each inserted column is `?? null` of the corresponding payload value. -/
theorem fieldVal_createRow (st : Store) (data : JsObj) (f : FormField) :
    (createRow st data).fieldVal f = dbOfJs (jsGet data (fieldKey f)) := by
  cases f <;> rfl

/-- `created_at` survives `applyUpdate` untouched. -/
theorem created_at_applyUpdate (m r : FormRow) :
    (applyUpdate m r).created_at = r.created_at := rfl

/-- Searching the updated row list finds the updated image of the row the
search found before the update. -/
theorem find?_map_applyUpdate (rows : List FormRow) (id : Nat) (m cur : FormRow)
    (h : rows.find? (fun r => r.id == id) = some cur) :
    (rows.map fun r => if r.id == id then applyUpdate m r else r).find?
        (fun r => r.id == id) = some (applyUpdate m cur) := by
  induction rows with
  | nil => simp at h
  | cons x xs ih =>
    cases hx : (x.id == id) with
    | true =>
      simp only [List.find?_cons, hx] at h
      cases h
      have hax : ((applyUpdate m cur).id == id) = true := hx
      simp only [List.map_cons, hx, if_true, List.find?_cons, hax]
    | false =>
      simp only [List.find?_cons, hx] at h
      have hax : ((applyUpdate m x).id == id) = false := hx
      simp only [List.map_cons, hx, Bool.false_eq_true, if_false, List.find?_cons]
      exact ih h

/-- A search that fails on the first block of an append continues behind it. -/
theorem find?_append_none {α : Type} {p : α → Bool} {l₁ : List α} (l₂ : List α)
    (h : l₁.find? p = none) : (l₁ ++ l₂).find? p = l₂.find? p := by
  induction l₁ with
  | nil => rfl
  | cons x xs ih =>
    cases hx : p x with
    | true =>
      simp only [List.find?_cons, hx] at h
      cases h
    | false =>
      simp only [List.find?_cons, hx] at h
      rw [List.cons_append]
      simp only [List.find?_cons, hx]
      exact ih h

/-- A successful association lookup exhibits a member of the table. -/
theorem assocLookup_mem :
    ∀ (m : List (String × Option String)) (key : String) (v : Option String),
      assocLookup m key = some v → (key, v) ∈ m := by
  intro m
  induction m with
  | nil => intro key v h; simp [assocLookup] at h
  | cons kv rest ih =>
    intro key v h
    obtain ⟨k, w⟩ := kv
    simp only [assocLookup] at h
    split at h
    · next heq =>
      subst heq
      cases h
      exact List.mem_cons_self _ _
    · next hne =>
      exact List.mem_cons_of_mem _ (ih key v h)

/-- The store written by a create, independent of the mail branch taken. -/
theorem handleFormSubmission_store (mailOk : Bool) (st : Store) (data : JsObj) :
    (handleFormSubmission mailOk st data).store
      = { rows := st.rows ++ [createRow st data], nextId := st.nextId + 1,
          clock := st.clock + 1 } := by
  simp only [handleFormSubmission]
  split <;> rfl

/-- The id returned by a create, independent of the mail branch taken. -/
theorem handleFormSubmission_id (mailOk : Bool) (st : Store) (data : JsObj) :
    (handleFormSubmission mailOk st data).id = st.nextId := by
  simp only [handleFormSubmission]
  split <;> rfl

/-- The empty database satisfies the store invariant. -/
theorem storeWF_empty : StoreWF Store.empty :=
  ⟨List.Pairwise.nil, fun r hr => absurd hr (List.not_mem_nil r)⟩

/-- Membership in an insertion is membership in the parts. -/
theorem mem_insertDesc {a r : FormRow} :
    ∀ {l : List FormRow}, a ∈ insertDesc r l → a = r ∨ a ∈ l := by
  intro l
  induction l with
  | nil =>
    intro h
    simp only [insertDesc, List.mem_singleton] at h
    exact Or.inl h
  | cons x xs ih =>
    intro h
    by_cases hc : r.created_at ≤ x.created_at
    · rw [insertDesc, if_pos hc] at h
      rcases List.mem_cons.mp h with rfl | h'
      · exact Or.inr (List.mem_cons_self _ _)
      · rcases ih h' with rfl | h''
        · exact Or.inl rfl
        · exact Or.inr (List.mem_cons_of_mem _ h'')
    · rw [insertDesc, if_neg hc] at h
      rcases List.mem_cons.mp h with rfl | h'
      · exact Or.inl rfl
      · exact Or.inr h'

/-- Insertion keeps a list sorted by descending creation time. -/
theorem sortedDesc_insertDesc (r : FormRow) :
    ∀ {l : List FormRow}, l.Pairwise (fun a b => b.created_at ≤ a.created_at) →
      (insertDesc r l).Pairwise (fun a b => b.created_at ≤ a.created_at) := by
  intro l
  induction l with
  | nil =>
    intro _
    simp [insertDesc]
  | cons x xs ih =>
    intro h
    rcases List.pairwise_cons.mp h with ⟨hx, hxs⟩
    by_cases hc : r.created_at ≤ x.created_at
    · rw [insertDesc, if_pos hc]
      refine List.pairwise_cons.mpr ⟨?_, ih hxs⟩
      intro a ha
      rcases mem_insertDesc ha with rfl | ha'
      · exact hc
      · exact hx a ha'
    · rw [insertDesc, if_neg hc]
      refine List.pairwise_cons.mpr ⟨?_, List.pairwise_cons.mpr ⟨hx, hxs⟩⟩
      intro a ha
      rcases List.mem_cons.mp ha with rfl | ha'
      · exact le_of_not_le hc
      · exact le_trans (hx a ha') (le_of_not_le hc)

/-- The insertion sort output is sorted by descending creation time. -/
theorem sortedDesc_sortDesc (l : List FormRow) :
    (sortDesc l).Pairwise (fun a b => b.created_at ≤ a.created_at) := by
  induction l with
  | nil => exact List.Pairwise.nil
  | cons x xs ih =>
    rw [sortDesc, List.foldr_cons]
    exact sortedDesc_insertDesc x ih

/-- Insertion is a permutation of consing. -/
theorem perm_insertDesc (r : FormRow) :
    ∀ (l : List FormRow), List.Perm (insertDesc r l) (r :: l) := by
  intro l
  induction l with
  | nil => exact List.Perm.refl _
  | cons x xs ih =>
    by_cases hc : r.created_at ≤ x.created_at
    · rw [insertDesc, if_pos hc]
      exact (ih.cons x).trans (List.Perm.swap r x xs)
    · rw [insertDesc, if_neg hc]

/-- The insertion sort output is a permutation of its input. -/
theorem perm_sortDesc (l : List FormRow) : List.Perm (sortDesc l) l := by
  induction l with
  | nil => exact List.Perm.refl _
  | cons x xs ih =>
    rw [sortDesc, List.foldr_cons]
    exact (perm_insertDesc x _).trans (ih.cons x)

/-- Inserting an element no newer than anything present appends it. -/
theorem insertDesc_eq_append (r : FormRow) :
    ∀ (l : List FormRow), (∀ x ∈ l, r.created_at ≤ x.created_at) →
      insertDesc r l = l ++ [r] := by
  intro l
  induction l with
  | nil => intro _; rfl
  | cons x xs ih =>
    intro h
    rw [insertDesc, if_pos (h x (List.mem_cons_self x xs)), List.cons_append]
    rw [ih fun y hy => h y (List.mem_cons_of_mem x hy)]

/-- Sorting a strictly ascending list by descending time reverses it. -/
theorem sortDesc_of_ascending :
    ∀ (l : List FormRow), l.Pairwise (fun a b => a.created_at < b.created_at) →
      sortDesc l = l.reverse := by
  intro l
  induction l with
  | nil => intro _; rfl
  | cons x xs ih =>
    intro h
    rcases List.pairwise_cons.mp h with ⟨hx, hxs⟩
    rw [sortDesc, List.foldr_cons]
    show insertDesc x (sortDesc xs) = (x :: xs).reverse
    rw [ih hxs, List.reverse_cons]
    exact insertDesc_eq_append x xs.reverse
      fun y hy => le_of_lt (hx y (List.mem_reverse.mp hy))

/-- C2: mailbox resolution has exactly three outcomes: a label with an
explicit address in the static mapping resolves to that address (in
particular "Renewals" resolves to the Renewals address,
`vidhika@multycomm.com` in the current revision); the "General Enquiry"
label resolves to suppressed; any label absent from the mapping resolves to
the fixed default fallback address `info@shams.ae`. -/
theorem spec_c2_resolve_mailbox :
    (∀ label addr, assocLookup DISPOSITION_TO_EMAIL label = some (some addr) →
      resolveMailbox label = Mailbox.address addr) ∧
    resolveMailbox "Renewals" = Mailbox.address "vidhika@multycomm.com" ∧
    resolveMailbox "General Enquiry" = Mailbox.suppressed ∧
    (∀ label, assocLookup DISPOSITION_TO_EMAIL label = none →
      resolveMailbox label = Mailbox.address "info@shams.ae") := by
  refine ⟨?_, rfl, rfl, ?_⟩
  · intro label addr h
    have hmem := assocLookup_mem _ _ _ h
    simp only [DISPOSITION_TO_EMAIL, List.mem_cons, List.not_mem_nil, or_false,
      Prod.mk.injEq] at hmem
    rcases hmem with ⟨rfl, h1⟩ | ⟨rfl, h1⟩ | ⟨rfl, h1⟩ | ⟨rfl, h1⟩ | ⟨rfl, h1⟩ |
      ⟨rfl, h1⟩ | ⟨rfl, h1⟩ | ⟨rfl, h1⟩ <;> cases h1 <;> rfl
  · intro label h
    have hne : label ≠ "General Enquiry" := by
      intro heq
      rw [heq] at h
      exact absurd h (by decide)
    simp only [resolveMailbox]
    rw [if_neg hne, h]
    rfl

/-- Witness for C2 at concrete labels: a mapped label and an unmapped one. -/
theorem spec_c2_resolve_mailbox_witness :
    resolveMailbox "New Lead" = Mailbox.address "sanjana@multycomm.com" ∧
    resolveMailbox "Unknown Label" = Mailbox.address "info@shams.ae" :=
  ⟨spec_c2_resolve_mailbox.1 "New Lead" "sanjana@multycomm.com" (by decide),
   spec_c2_resolve_mailbox.2.2.2 "Unknown Label" (by decide)⟩

/-- C3: for every existing record id, an update whose only explicitly
supplied field is `call_disposition` (the payload's defined keys are
exactly that one) sends no notification email, whatever mailbox the
record's disposition resolves to. -/
theorem spec_c3_call_disposition_only (mailOk : Bool) (st : Store) (id : Nat)
    (data : JsObj) (cur : FormRow) (hget : getFormById st id = some cur)
    (honly : meaningfulKeys data = ["call_disposition"]) :
    ∃ out, (updateFormSubmission mailOk st id data).2 = Except.ok out ∧
      out.emailTo = none := by
  refine ⟨{ emailTo := none, delivered := false }, ?_, rfl⟩
  simp [updateFormSubmission, hget, honly]

/-- Witness for C3: the stored record's disposition "Customer Support"
resolves to a real mailbox, yet the call_disposition-only update sends
no email. -/
theorem spec_c3_call_disposition_only_witness :
    ∃ out,
      (updateFormSubmission true sampleStore 1 [("call_disposition", JsVal.str "Answered")]).2
        = Except.ok out ∧ out.emailTo = none :=
  spec_c3_call_disposition_only true sampleStore 1
    [("call_disposition", JsVal.str "Answered")] sampleRow rfl rfl

/-- C4: for every id with no existing record, update fails with the
not-found error and leaves the store exactly unchanged (the existence check
precedes any write). -/
theorem spec_c4_update_not_found (mailOk : Bool) (st : Store) (id : Nat) (data : JsObj)
    (h : getFormById st id = none) :
    updateFormSubmission mailOk st id data
      = (st, Except.error ("Form with id " ++ toString id ++ " not found")) := by
  simp [updateFormSubmission, h]

/-- Witness for C4 on the empty store. -/
theorem spec_c4_update_not_found_witness :
    updateFormSubmission true Store.empty 1 []
      = (Store.empty, Except.error ("Form with id " ++ toString 1 ++ " not found")) :=
  spec_c4_update_not_found true Store.empty 1 [] rfl

/-- C5: the mail transport outcome never changes the caller-visible result
of create or update: the committed store, the returned id, the attempted
address and the error status are identical whether delivery succeeds or
fails (only the `delivered` flag records the transport outcome, matching
the source's catch-and-log of `sendMail` failures). -/
theorem spec_c5_mail_failure_isolated (mailOk : Bool) (st : Store) (cdata : JsObj)
    (id : Nat) (udata : JsObj) :
    ((handleFormSubmission mailOk st cdata).store
        = (handleFormSubmission true st cdata).store ∧
      (handleFormSubmission mailOk st cdata).id
        = (handleFormSubmission true st cdata).id ∧
      (handleFormSubmission mailOk st cdata).emailTo
        = (handleFormSubmission true st cdata).emailTo) ∧
    ((updateFormSubmission mailOk st id udata).1
        = (updateFormSubmission true st id udata).1 ∧
      Except.map UpdateOut.emailTo (updateFormSubmission mailOk st id udata).2
        = Except.map UpdateOut.emailTo (updateFormSubmission true st id udata).2) := by
  constructor
  · simp only [handleFormSubmission]
    split <;> exact ⟨rfl, rfl, rfl⟩
  · cases hg : getFormById st id with
    | none => simp [updateFormSubmission, hg]
    | some cur =>
      simp only [updateFormSubmission, hg]
      split_ifs <;> exact ⟨rfl, rfl⟩

/-- C1: for every existing record id and any payload, update stores, for
each schema field, `?? null` of the payload value when the key was supplied
with a defined value (empty string and null included), and otherwise the
record's previously stored value; the creation timestamp is untouched.  A
key bound to `undefined` counts as not supplied (destructuring defaults). -/
theorem spec_c1_update_merge (mailOk : Bool) (st : Store) (id : Nat) (data : JsObj)
    (cur : FormRow) (h : getFormById st id = some cur) :
    ∃ out row,
      (updateFormSubmission mailOk st id data).2 = Except.ok out ∧
      getFormById (updateFormSubmission mailOk st id data).1 id = some row ∧
      row.created_at = cur.created_at ∧
      ∀ f : FormField,
        (jsGet data (fieldKey f) ≠ JsVal.undef →
          row.fieldVal f = dbOfJs (jsGet data (fieldKey f))) ∧
        (jsGet data (fieldKey f) = JsVal.undef →
          row.fieldVal f = cur.fieldVal f) := by
  have h' : st.rows.find? (fun r => r.id == id) = some cur := h
  have hfst : (updateFormSubmission mailOk st id data).1
      = { st with rows := st.rows.map fun r =>
            if r.id == id then applyUpdate (mergeRow cur data) r else r } := by
    simp only [updateFormSubmission, h]
    split_ifs <;> rfl
  have hok : ∃ out, (updateFormSubmission mailOk st id data).2 = Except.ok out := by
    simp only [updateFormSubmission, h]
    split_ifs <;> exact ⟨_, rfl⟩
  obtain ⟨out, hout⟩ := hok
  have hfind : getFormById (updateFormSubmission mailOk st id data).1 id
      = some (applyUpdate (mergeRow cur data) cur) := by
    rw [hfst]
    exact find?_map_applyUpdate st.rows id (mergeRow cur data) cur h'
  refine ⟨out, applyUpdate (mergeRow cur data) cur, hout, hfind, rfl, ?_⟩
  intro f
  have hv : (applyUpdate (mergeRow cur data) cur).fieldVal f
      = mergeField (cur.fieldVal f) (jsGet data (fieldKey f)) := by
    rw [fieldVal_applyUpdate, fieldVal_mergeRow]
  constructor
  · intro hne
    rw [hv]
    cases hj : jsGet data (fieldKey f) with
    | undef => exact absurd hj hne
    | null => rfl
    | str s => rfl
  · intro he
    rw [hv, he]
    rfl

/-- Witness for C1: updating the sample record with an explicit empty-string
company and an explicit null query. -/
theorem spec_c1_update_merge_witness :
    ∃ out row,
      (updateFormSubmission true sampleStore 1
          [("company", JsVal.str ""), ("query", JsVal.null)]).2 = Except.ok out ∧
      getFormById (updateFormSubmission true sampleStore 1
          [("company", JsVal.str ""), ("query", JsVal.null)]).1 1 = some row ∧
      row.created_at = sampleRow.created_at ∧
      ∀ f : FormField,
        (jsGet [("company", JsVal.str ""), ("query", JsVal.null)] (fieldKey f) ≠ JsVal.undef →
          row.fieldVal f
            = dbOfJs (jsGet [("company", JsVal.str ""), ("query", JsVal.null)] (fieldKey f))) ∧
        (jsGet [("company", JsVal.str ""), ("query", JsVal.null)] (fieldKey f) = JsVal.undef →
          row.fieldVal f = sampleRow.fieldVal f) :=
  spec_c1_update_merge true sampleStore 1
    [("company", JsVal.str ""), ("query", JsVal.null)] sampleRow rfl

/-- Reading an absent key yields `undefined`. -/
theorem jsGet_eq_undef_of_not_mem :
    ∀ (data : JsObj) (k : String), k ∉ data.map Prod.fst → jsGet data k = JsVal.undef := by
  intro data
  induction data with
  | nil => intro k _; rfl
  | cons kv rest ih =>
    intro k hk
    obtain ⟨k1, v1⟩ := kv
    simp only [List.map_cons, List.mem_cons, not_or] at hk
    obtain ⟨hne, hrest⟩ := hk
    simp only [jsGet]
    rw [if_neg hne]
    exact ih k hrest

/-- C9: a key that is present in the update payload but bound to `undefined`
is treated exactly like an omitted key — the whole update result (stored
values, notification decision, everything) is unchanged by adding such a
key, so the field keeps its stored value and the key does not count for the
call_disposition-only suppression rule. -/
theorem spec_c9_undefined_key_like_omitted (mailOk : Bool) (st : Store) (id : Nat)
    (k : String) (data : JsObj) (hk : k ∉ data.map Prod.fst) :
    updateFormSubmission mailOk st id ((k, JsVal.undef) :: data)
      = updateFormSubmission mailOk st id data := by
  have hjs : ∀ key, jsGet ((k, JsVal.undef) :: data) key = jsGet data key := by
    intro key
    by_cases hkey : key = k
    · subst hkey
      simp only [jsGet, if_pos]
      exact (jsGet_eq_undef_of_not_mem data key hk).symm
    · simp only [jsGet]
      rw [if_neg hkey]
  have hmk : meaningfulKeys ((k, JsVal.undef) :: data) = meaningfulKeys data := by
    simp [meaningfulKeys, List.filter_cons]
  have hmr : ∀ cur, mergeRow cur ((k, JsVal.undef) :: data) = mergeRow cur data := by
    intro cur
    simp only [mergeRow, hjs]
  cases hg : getFormById st id with
  | none => simp [updateFormSubmission, hg]
  | some cur => simp only [updateFormSubmission, hg, hmk, hmr]

/-- Witness for C9: adding `company: undefined` to a name-only update of the
sample record changes nothing. -/
theorem spec_c9_undefined_key_like_omitted_witness :
    updateFormSubmission true sampleStore 1
        (("company", JsVal.undef) :: [("name", JsVal.str "Bo")])
      = updateFormSubmission true sampleStore 1 [("name", JsVal.str "Bo")] :=
  spec_c9_undefined_key_like_omitted true sampleStore 1 "company"
    [("name", JsVal.str "Bo")] (by decide)

/-- C6: for every bag of optional call-metadata parameters, webhook intake
appends exactly one new stub record carrying the next id and produces a
redirect URL with that id as the `id` query parameter; the intake path
contains no mail-transport call, so no notification is attempted.  At the
concrete input `cidname = "Acme"` with no other fields, the stub record and
redirect URL are computed explicitly. -/
theorem spec_c6_webhook_intake :
    (∀ (st : Store) (d : JsObj), ∃ row,
      (processWebhookData (some d) st).store.rows = st.rows ++ [row] ∧
      row.id = st.nextId ∧
      (processWebhookData (some d) st).response
        = WebhookResponse.redirect (clientURL ++ "/forms?id=" ++ toString row.id) ∧
      (processWebhookData (some d) st).emailTo = none) ∧
    (processWebhookData (some [("cidname", JsVal.str "Acme")]) Store.empty).store.rows
      = [{ id := 1, company := some "Acme", name := some "Acme",
           contact_number := some "", email := some "",
           disposition := some "General Enquiry",
           query := some "Call received from queue: Unknown",
           queue_id := some "", queue_name := some "", agent_id := some "",
           agent_ext := some "", caller_id__name := some "Acme",
           caller_id__number := some "", call_disposition := none,
           after_disposition := none, after_sub_disposition := none,
           after_follow_up_notes := none, created_at := 0 }] ∧
    (processWebhookData (some [("cidname", JsVal.str "Acme")]) Store.empty).response
      = WebhookResponse.redirect "http://localhost:7775/forms?id=1" := by
  refine ⟨?_, rfl, rfl⟩
  intro st d
  exact ⟨webhookRow st d, rfl, rfl, rfl, rfl⟩

/-- C7: on a well-formed store, create followed by getById on the returned
id yields a record whose stored fields are `?? null` of the corresponding
payload values — supplied fields are stored as given, unsupplied optional
fields as NULL. -/
theorem spec_c7_create_get_roundtrip (mailOk : Bool) (st : Store) (data : JsObj)
    (hwf : StoreWF st) :
    ∃ row,
      getFormById (handleFormSubmission mailOk st data).store
          (handleFormSubmission mailOk st data).id = some row ∧
      ∀ f : FormField, row.fieldVal f = dbOfJs (jsGet data (fieldKey f)) := by
  refine ⟨createRow st data, ?_, fieldVal_createRow st data⟩
  rw [handleFormSubmission_store, handleFormSubmission_id]
  have hnone : st.rows.find? (fun r => r.id == st.nextId) = none := by
    rw [List.find?_eq_none]
    intro r hr
    simp only [beq_iff_eq]
    exact Nat.ne_of_lt (hwf.2 r hr).1
  show ((st.rows ++ [createRow st data]).find? fun r => r.id == st.nextId)
      = some (createRow st data)
  rw [find?_append_none _ hnone]
  simp [List.find?_cons, createRow]

/-- Witness for C7 on the empty store with a small payload. -/
theorem spec_c7_create_get_roundtrip_witness :
    ∃ row,
      getFormById (handleFormSubmission true Store.empty
            [("name", JsVal.str "Ada")]).store
          (handleFormSubmission true Store.empty [("name", JsVal.str "Ada")]).id
        = some row ∧
      ∀ f : FormField, row.fieldVal f
        = dbOfJs (jsGet [("name", JsVal.str "Ada")] (fieldKey f)) :=
  spec_c7_create_get_roundtrip true Store.empty [("name", JsVal.str "Ada")] storeWF_empty

/-- C8: `listForms` returns all stored records (a permutation of the table)
ordered by creation timestamp descending; on a well-formed store, inserting
record A and then record B lists B strictly before A (B first, A second). -/
theorem spec_c8_list_newest_first :
    (∀ st : Store, List.Perm (listForms st) st.rows) ∧
    (∀ st : Store, (listForms st).Pairwise (fun a b => b.created_at ≤ a.created_at)) ∧
    (∀ (mailOk : Bool) (st : Store) (dA dB : JsObj), StoreWF st →
      ∃ rB rA rest,
        listForms (handleFormSubmission mailOk
            (handleFormSubmission mailOk st dA).store dB).store = rB :: rA :: rest ∧
        rB.id = (handleFormSubmission mailOk
            (handleFormSubmission mailOk st dA).store dB).id ∧
        rA.id = (handleFormSubmission mailOk st dA).id ∧
        rA.created_at < rB.created_at) := by
  refine ⟨fun st => perm_sortDesc st.rows, fun st => sortedDesc_sortDesc st.rows, ?_⟩
  intro mailOk st dA dB hwf
  have key : ∀ (rows : List FormRow) (rA rB : FormRow),
      rows.Pairwise (fun a b => a.created_at < b.created_at) →
      (∀ r ∈ rows, r.created_at < rA.created_at) →
      rA.created_at < rB.created_at →
      sortDesc ((rows ++ [rA]) ++ [rB]) = rB :: rA :: rows.reverse := by
    intro rows rA rB hpw hlt hAB
    have hasc : ((rows ++ [rA]) ++ [rB]).Pairwise
        (fun a b => a.created_at < b.created_at) := by
      rw [List.append_assoc]
      refine List.pairwise_append.mpr ⟨hpw, ?_, ?_⟩
      · refine List.pairwise_cons.mpr ⟨?_, List.pairwise_singleton _ _⟩
        intro b hb
        rcases List.mem_cons.mp hb with rfl | h0
        · exact hAB
        · exact absurd h0 (List.not_mem_nil _)
      · intro a ha b hb
        rcases List.mem_cons.mp hb with rfl | hb'
        · exact hlt a ha
        · rcases List.mem_cons.mp hb' with rfl | h0
          · exact lt_trans (hlt a ha) hAB
          · exact absurd h0 (List.not_mem_nil _)
    rw [sortDesc_of_ascending _ hasc]
    simp [List.reverse_append]
  have hAB : (createRow st dA).created_at
      < (createRow (handleFormSubmission mailOk st dA).store dB).created_at := by
    show st.clock < (handleFormSubmission mailOk st dA).store.clock
    rw [handleFormSubmission_store]
    exact Nat.lt_succ_self _
  refine ⟨createRow (handleFormSubmission mailOk st dA).store dB, createRow st dA,
    st.rows.reverse, ?_, (handleFormSubmission_id mailOk _ dB).symm,
    (handleFormSubmission_id mailOk st dA).symm, hAB⟩
  have hrows1 : (handleFormSubmission mailOk st dA).store.rows
      = st.rows ++ [createRow st dA] := by
    rw [handleFormSubmission_store]
  have hrows2 : (handleFormSubmission mailOk
        (handleFormSubmission mailOk st dA).store dB).store.rows
      = (handleFormSubmission mailOk st dA).store.rows
          ++ [createRow (handleFormSubmission mailOk st dA).store dB] := by
    rw [handleFormSubmission_store]
  show sortDesc (handleFormSubmission mailOk
      (handleFormSubmission mailOk st dA).store dB).store.rows = _
  rw [hrows2, hrows1]
  exact key st.rows (createRow st dA)
    (createRow (handleFormSubmission mailOk st dA).store dB)
    (hwf.1.imp fun hab => hab.2)
    (fun r hr => (hwf.2 r hr).2)
    hAB

/-- Witness for C8: two consecutive creates on the empty store. -/
theorem spec_c8_list_newest_first_witness :
    ∃ rB rA rest,
      listForms (handleFormSubmission true
          (handleFormSubmission true Store.empty []).store []).store
        = rB :: rA :: rest ∧
      rB.id = (handleFormSubmission true
          (handleFormSubmission true Store.empty []).store []).id ∧
      rA.id = (handleFormSubmission true Store.empty []).id ∧
      rA.created_at < rB.created_at :=
  spec_c8_list_newest_first.2.2 true Store.empty [] [] storeWF_empty

/-- Counterexample to C10 as literally stated: in the update path,
suppression is NOT decided solely by the disposition's equality with
"General Enquiry" — a payload whose only defined key is `call_disposition`
is suppressed (no email attempted) even though the merged disposition,
"Customer Support", is a different label that maps to a real mailbox. -/
theorem spec_c10_counterexample :
    (updateFormSubmission true sampleStore 1 [("call_disposition", JsVal.str "Done")]).2
      = Except.ok { emailTo := none, delivered := false } ∧
    (mergeRow sampleRow [("call_disposition", JsVal.str "Done")]).disposition
      = some "Customer Support" :=
  ⟨rfl, rfl⟩

/-- C10 (amended): aside from the update-specific rule that a payload whose
only defined key is `call_disposition` always suppresses notification,
suppression in create and update is decided solely by literal string
equality of the (merged) disposition with "General Enquiry", checked before
the mailbox mapping is consulted; a disposition that is absent, null, or
the empty string is not suppressed, and the attempt is addressed to the
default fallback mailbox `info@shams.ae`. -/
theorem spec_c10_general_enquiry_literal :
    (∀ (mailOk : Bool) (st : Store) (data : JsObj),
      ((handleFormSubmission mailOk st data).emailTo = none ↔
        jsGet data "disposition" = JsVal.str "General Enquiry")) ∧
    (∀ (mailOk : Bool) (st : Store) (data : JsObj),
      (jsGet data "disposition" = JsVal.undef ∨ jsGet data "disposition" = JsVal.null ∨
        jsGet data "disposition" = JsVal.str "") →
      (handleFormSubmission mailOk st data).emailTo = some "info@shams.ae") ∧
    (∀ (mailOk : Bool) (st : Store) (id : Nat) (data : JsObj) (cur : FormRow)
        (out : UpdateOut),
      getFormById st id = some cur →
      meaningfulKeys data ≠ ["call_disposition"] →
      (updateFormSubmission mailOk st id data).2 = Except.ok out →
      (out.emailTo = none ↔ (mergeRow cur data).disposition = some "General Enquiry")) ∧
    (∀ (mailOk : Bool) (st : Store) (id : Nat) (data : JsObj) (cur : FormRow)
        (out : UpdateOut),
      getFormById st id = some cur →
      meaningfulKeys data ≠ ["call_disposition"] →
      (updateFormSubmission mailOk st id data).2 = Except.ok out →
      ((mergeRow cur data).disposition = none ∨
        (mergeRow cur data).disposition = some "") →
      out.emailTo = some "info@shams.ae") := by
  refine ⟨?_, ?_, ?_, ?_⟩
  · intro mailOk st data
    simp only [handleFormSubmission]
    split
    · next h => simp [h]
    · next h => simp [h]
  · intro mailOk st data hd
    have hne : jsGet data "disposition" ≠ JsVal.str "General Enquiry" := by
      rcases hd with h | h | h <;> simp [h]
    simp only [handleFormSubmission]
    rw [if_neg hne]
    rcases hd with h | h | h <;>
      simp [h, dispGetJs, jsOr, assocLookup, DISPOSITION_TO_EMAIL]
  · intro mailOk st id data cur out hget hmk hok
    simp only [updateFormSubmission, hget] at hok
    rw [if_neg hmk] at hok
    split at hok
    · next hGE =>
      simp at hok
      subst hok
      simp [hGE]
    · next hGEn =>
      simp at hok
      subst hok
      simp [hGEn]
  · intro mailOk st id data cur out hget hmk hok hdisp
    simp only [updateFormSubmission, hget] at hok
    rw [if_neg hmk] at hok
    split at hok
    · next hGE =>
      rcases hdisp with h | h <;> rw [h] at hGE <;> simp at hGE
    · next hGEn =>
      simp at hok
      subst hok
      rcases hdisp with h | h <;>
        simp [h, dispGetOpt, jsOr, assocLookup, DISPOSITION_TO_EMAIL]

/-- Witness for the amended C10 at concrete inputs: a create with no
disposition is addressed to the fallback mailbox, and so is an update of a
record whose stored disposition is NULL. -/
theorem spec_c10_general_enquiry_literal_witness :
    (handleFormSubmission true Store.empty []).emailTo = some "info@shams.ae" ∧
    ({ emailTo := some "info@shams.ae", delivered := true } : UpdateOut).emailTo
      = some "info@shams.ae" :=
  ⟨spec_c10_general_enquiry_literal.2.1 true Store.empty [] (Or.inl rfl),
   spec_c10_general_enquiry_literal.2.2.2 true sampleStoreNoDisp 1
     [("name", JsVal.str "Bo")] sampleRowNoDisp
     { emailTo := some "info@shams.ae", delivered := true } rfl (by decide) rfl
     (Or.inl rfl)⟩
